import Mathlib

/-!
Shallow embedding of the deployment orchestrator of `nkp-deploy-auto`
(`src/nkp-claude-code-deployment/ui/app.py`).

Python dictionaries are modelled as association lists with Python dict
semantics (insertion order, replace-in-place on existing key); Python
floats are modelled with `Rat` (the progress arithmetic `i / n * 100` is
exact there); the process runner (`subprocess.Popen` plus the line loop) is
modelled by a behaviour list: for each spawn attempt, either the spawn
raises (`SpawnResult.spawnError`, mirroring `Popen` raising, e.g.
`FileNotFoundError`) or the child runs, producing a list of output lines
and an exit code.  The global module state of `app.py`
(`deployment_active`, `current_mode`, the `state` dict, `log_queue`, and
the set of spawned processes) is gathered in the `World` structure and
threaded explicitly.
-/

/-- Lookup in an association list, mirroring Python `d.get(k)` / `k in d`. -/
def alGet? {α : Type} (d : List (String × α)) (k : String) : Option α :=
  match d with
  | [] => none
  | (k2, v) :: rest => if k2 = k then some v else alGet? rest k

/-- Assignment `d[k] = v` on a Python dict: replace the first binding of `k`
in place, or append a new binding when the key is absent. -/
def alSet {α : Type} (d : List (String × α)) (k : String) (v : α) : List (String × α) :=
  match d with
  | [] => [(k, v)]
  | (k2, v2) :: rest => if k2 = k then (k, v) :: rest else (k2, v2) :: alSet rest k v

/-- Python truthiness of an optional string (`None` and `""` are falsy). -/
def pyTruthyOpt (o : Option String) : Bool :=
  match o with
  | some s => !s.isEmpty
  | none => false

/-- Whether the second character list is a prefix of the first. -/
def charsStartWith : List Char → List Char → Bool
  | _, [] => true
  | [], _ :: _ => false
  | c :: cs, p :: ps => c = p && charsStartWith cs ps

/-- Whether the second character list occurs inside the first. -/
def charsContain : List Char → List Char → Bool
  | [], pat => pat.isEmpty
  | c :: cs, pat => charsStartWith (c :: cs) pat || charsContain cs pat

/-- Python substring test `pat in s`. -/
def strContains (s pat : String) : Bool :=
  charsContain s.data pat.data

/-- Python `str.lower()` (ASCII case folding, character by character). -/
def strLower (s : String) : String :=
  String.mk (s.data.map Char.toLower)

/-- Values stored in the process-wide `state` dict (numbers or strings). -/
inductive StVal where
  | num (q : Rat)
  | str (s : String)
deriving DecidableEq

/-- The process-wide `state` dict of `app.py`. -/
abbrev StateDict := List (String × StVal)

/-- Python `state.get(k, dflt)`. -/
def stGet (d : StateDict) (k : String) (dflt : StVal) : StVal :=
  (alGet? d k).getD dflt

/-- Events placed on `log_queue` by `enqueue_event` (`type` plus `message`);
the `progress` payload (a JSON rendering of percent/status/step in the
source) is kept structured. -/
inductive Event where
  | log (text : String)
  | status (text : String)
  | phase (label : String)
  | progress (percent : StVal) (status : StVal) (step : StVal)
deriving DecidableEq

/-- Outcome of one `subprocess.Popen` attempt: the spawn itself raises, or
the child runs producing output lines and an exit code. -/
inductive SpawnResult where
  | spawnError
  | ran (lines : List String) (exitCode : Int)
deriving DecidableEq

/-- Whether `run_deployment` returned normally or let an exception escape. -/
inductive RunOutcome where
  | normal
  | raised
deriving DecidableEq

/-- Global module state of `app.py`: `deployment_active`, the `state` dict,
`log_queue` (as the list of events enqueued, in order), `current_mode`, and
the argv of every child process successfully spawned, in order. -/
structure World where
  active : Bool
  state : StateDict
  events : List Event
  spawned : List (List String)
  current_mode : String
deriving DecidableEq

/-- Modelled from the spec: the `state` dict itself is referenced but not
initialised anywhere under `src/`; §3 of the spec says RunState is created
at process start with `status = idle` (progress starts at 0, step empty,
matching the defaults `update_state` reads with `state.get`).  The flag
`deployment_active` starts `False` and `current_mode` starts `"automated"`
(both initialised in `app.py`). -/
def initialWorld : World :=
  { active := false
    state := [("progress", StVal.num 0), ("status", StVal.str "idle"), ("step", StVal.str "")]
    events := []
    spawned := []
    current_mode := "automated" }

/-- Mirrors `enqueue_event`: put one event on `log_queue`. -/
def enqueue (w : World) (e : Event) : World :=
  { w with events := w.events ++ [e] }

/-- Mirrors `update_state` (app.py:631): write the provided fields of the
`state` dict, then enqueue a `progress` event rendering the current
percent/status/step (read back with `state.get` and its defaults). -/
def update_state (w : World) (progress : Option Rat) (status : Option String)
    (step : Option String) : World :=
  let d0 := match progress with
    | some p => alSet w.state "progress" (StVal.num p)
    | none => w.state
  let d1 := match status with
    | some s => alSet d0 "status" (StVal.str s)
    | none => d0
  let d2 := match step with
    | some s => alSet d1 "step" (StVal.str s)
    | none => d1
  enqueue { w with state := d2 }
    (Event.progress (stGet d2 "progress" (StVal.num 0)) (stGet d2 "status" (StVal.str "idle"))
      (stGet d2 "step" (StVal.str "")))

/-- Path of a deployment script; the absolute `BASE_DIR` prefix of the
installation is elided (no claim depends on it). -/
def scriptPath (name : String) : String := "scripts/" ++ name

/-- Mirrors `PHASE_SETS` (app.py:460). -/
def PHASE_SETS : List (String × List String) :=
  [("automated", ["Validate & prepare", "Deploy NKP", "Verify deployment"]),
   ("phased", ["Validate prerequisites", "Prepare nodes", "Deploy NKP", "Verify deployment"])]

/-- Mirrors `PHASE_COMMANDS` (app.py:474): label to (label, argv). -/
def PHASE_COMMANDS : List (String × (String × List String)) :=
  [("Deploy NKP", ("Deploy NKP", ["/bin/bash", scriptPath "deploy-nkp.sh"])),
   ("Verify deployment", ("Verify deployment", ["/bin/bash", scriptPath "verify-deployment.sh"])),
   ("Validate prerequisites", ("Validate prerequisites", ["/bin/bash", scriptPath "parallel-validate.sh"])),
   ("Prepare nodes", ("Prepare nodes", ["/bin/bash", scriptPath "parallel-prepare-nodes.sh"]))]

/-- Mirrors `build_command_sequence` (app.py:651): `automated` mode yields
the single composite step; `phased` mode resolves each label through
`PHASE_COMMANDS`, skipping (`continue`) labels with no mapping. -/
def build_command_sequence (mode : String) (phases : List String) :
    List (String × List String) :=
  if mode = "automated" then
    [("Parallel deploy + verify", ["/bin/bash", scriptPath "parallel-deploy-and-verify.sh"])]
  else
    phases.filterMap (fun phase => alGet? PHASE_COMMANDS phase)

/-- Mirrors `detect_phase` (app.py:664).  The `PHASE_KEYWORDS` table it
iterates is referenced but not defined anywhere under `src/`; modelled from
the spec (§4.2: an ordered set of keyword-to-phaseLabel rules), the table is
taken as an explicit parameter `rules`, in registration order. -/
def detect_phase (rules : List (String × String)) (line : String) (mode : String) :
    Option String :=
  let lower_line := strLower line
  match rules.find? (fun kp => strContains lower_line kp.1) with
  | some kp => some kp.2
  | none =>
    if mode = "automated" && strContains lower_line "verify" then some "Verify deployment"
    else none

/-- Step prologue of the loop body of `run_deployment` (app.py:686): phase,
status and log events, then the state update to the step`s starting
percent. -/
def stepStart (label : String) (index total : Nat) (w : World) : World :=
  let w := enqueue w (Event.phase label)
  let w := enqueue w (Event.status ("Running " ++ label))
  let w := enqueue w
    (Event.log ("[STEP " ++ toString index ++ "/" ++ toString total ++ "] Starting " ++ label))
  update_state w (some (((index : Rat) - 1) / (total : Rat) * 100)) (some "running")
    (some ("Starting " ++ label))

/-- Record a successfully spawned child process. -/
def addSpawn (cmd : List String) (w : World) : World :=
  { w with spawned := w.spawned ++ [cmd] }

/-- Per-line handling of the child`s merged output (app.py:703): log the
rstripped line and re-publish a phase event on a classifier match. -/
def processLine (rules : List (String × String)) (mode : String) (line : String)
    (w : World) : World :=
  let clean_line := line.trimRight
  let w := enqueue w (Event.log clean_line)
  match detect_phase rules clean_line mode with
  | some detected => enqueue w (Event.phase detected)
  | none => w

/-- Fold `processLine` over the child`s output lines, in arrival order. -/
def processLines (rules : List (String × String)) (mode : String) (lines : List String)
    (w : World) : World :=
  lines.foldl (fun w line => processLine rules mode line w) w

/-- Failure epilogue of a step (app.py:712): failure status and log events,
state set to `error` at percent `index / total * 100`, and
`deployment_active` cleared before returning. -/
def stepFail (label : String) (code : Int) (index total : Nat) (w : World) : World :=
  let msg := label ++ " failed with exit code " ++ toString code
  let w := enqueue w (Event.status msg)
  let w := enqueue w
    (Event.log ("[STEP " ++ toString index ++ "/" ++ toString total ++ "] " ++ msg))
  let w := update_state w (some ((index : Rat) / (total : Rat) * 100)) (some "error")
    (some (label ++ " failed"))
  { w with active := false }

/-- Success epilogue of a step (app.py:720): completion log event and state
update to percent `index / total * 100`. -/
def stepOk (label : String) (index total : Nat) (w : World) : World :=
  let w := enqueue w
    (Event.log ("[STEP " ++ toString index ++ "/" ++ toString total ++ "] Completed " ++ label))
  update_state w (some ((index : Rat) / (total : Rat) * 100)) (some "running")
    (some ("Completed " ++ label))

/-- Epilogue after the loop (app.py:723): final events, state set to
complete at 100, `deployment_active` cleared. -/
def finishRun (w : World) : World :=
  let w := enqueue w (Event.status "Deployment flow completed")
  let w := enqueue w (Event.log "All deployment steps completed")
  let w := update_state w (some 100) (some "complete") (some "Deployment flow completed")
  { w with active := false }

/-- The step loop of `run_deployment` (app.py:686), 1-based `index`; `behs`
supplies the outcome of each successive spawn attempt.  A spawn error makes
the exception escape (`RunOutcome.raised`) with the world as mutated so
far; a non-zero exit ends the run through `stepFail`. -/
def runSteps (rules : List (String × String)) (mode : String) (total : Nat) :
    List (String × List String) → List SpawnResult → Nat → World → World × RunOutcome
  | [], _, _, w => (finishRun w, RunOutcome.normal)
  | (label, command) :: rest, behs, index, w =>
    let w1 := stepStart label index total w
    match behs.headD (SpawnResult.ran [] 0) with
    | SpawnResult.spawnError => (w1, RunOutcome.raised)
    | SpawnResult.ran lines code =>
      let w2 := processLines rules mode lines (addSpawn command w1)
      if code ≠ 0 then (stepFail label code index total w2, RunOutcome.normal)
      else runSteps rules mode total rest behs.tail (index + 1) (stepOk label index total w2)

/-- Mirrors `run_deployment` (app.py:674): set `deployment_active`, resolve
the command sequence, coerce an empty step count to 1 (`len(commands) or
1`), publish the start events and initial state, then run the steps. -/
def run_deployment (rules : List (String × String)) (mode : String) (phases : List String)
    (behs : List SpawnResult) (w : World) : World × RunOutcome :=
  let w := { w with active := true }
  let commands := build_command_sequence mode phases
  let total_steps := if commands.length = 0 then 1 else commands.length
  let start_message :=
    "Starting " ++ mode ++ " deployment flow (" ++ toString total_steps ++ " step(s))"
  let w := enqueue w (Event.status start_message)
  let w := enqueue w (Event.log start_message)
  let w := update_state w (some 0) (some "running") (some "Initializing deployment")
  runSteps rules mode total_steps commands behs 1 w

/-- Mirrors `SENSITIVE_FIELDS` (app.py:27). -/
def SENSITIVE_FIELDS : List String := ["PRISM_CENTRAL_PASSWORD"]

/-- Single quote character (used by the shell-quoting model). -/
def sQuote : String := (Char.ofNat 39).toString

/-- Characters `shlex.quote` treats as safe: ASCII word characters plus at, percent, plus, equals, colon, comma, dot, slash, hyphen. -/
def shlexSafeChar (c : Char) : Bool :=
  (c.isAlphanum && c.toNat < 128) ||
    c ∈ ['@', '%', '+', '=', ':', ',', '.', '/', '-', '_']

/-- Model of Python `shlex.quote`. -/
def shlexQuote (s : String) : String :=
  if s = "" then sQuote ++ sQuote
  else if s.toList.all shlexSafeChar then s
  else sQuote ++ s.replace sQuote (sQuote ++ "\"" ++ sQuote ++ "\"" ++ sQuote) ++ sQuote

/-- The section ruler line emitted between env-file sections (app.py:592):
a hash, a space, and 77 equals signs (char 61). -/
def sepLine : String :=
  "# " ++ String.mk (List.replicate 77 (Char.ofNat 61))

/-- Mirrors the `section_headers` table of `format_env_lines` (app.py:531). -/
def section_headers : List (String × List String) :=
  [("CLUSTER CONFIGURATION", ["CLUSTER_NAME"]),
   ("NODE ADDRESSES",
    ["CONTROL_PLANE_1_ADDRESS", "CONTROL_PLANE_2_ADDRESS", "CONTROL_PLANE_3_ADDRESS",
     "WORKER_1_ADDRESS", "WORKER_2_ADDRESS", "WORKER_3_ADDRESS", "WORKER_4_ADDRESS"]),
   ("CONTROL PLANE ENDPOINT",
    ["CONTROL_PLANE_ENDPOINT_HOST", "CONTROL_PLANE_ENDPOINT_PORT", "VIRTUAL_IP_INTERFACE"]),
   ("SSH CONFIGURATION", ["SSH_USER", "SSH_PRIVATE_KEY_FILE", "SSH_PRIVATE_KEY_SECRET_NAME"]),
   ("NETWORKING", ["METALLB_IP_RANGE", "POD_CIDR", "SERVICE_CIDR"]),
   ("PROXY CONFIGURATION", ["HTTP_PROXY", "HTTPS_PROXY", "NO_PROXY"]),
   ("STORAGE CONFIGURATION",
    ["STORAGE_PROVIDER", "NUTANIX_ENDPOINT", "NUTANIX_USER", "NUTANIX_PASSWORD",
     "PRISM_CENTRAL_PASSWORD", "NUTANIX_CLUSTER_UUID", "STORAGE_CONTAINER"]),
   ("LICENSE", ["LICENSE_TYPE", "NKP_LICENSE_TOKEN"]),
   ("REGISTRY CONFIGURATION",
    ["REGISTRY_MIRROR_URL", "REGISTRY_MIRROR_USERNAME", "REGISTRY_MIRROR_PASSWORD"]),
   ("AIR-GAPPED CONFIGURATION",
    ["AIRGAPPED", "LOCAL_REGISTRY_URL", "LOCAL_REGISTRY_CA_CERT", "LOCAL_REGISTRY_USERNAME",
     "LOCAL_REGISTRY_PASSWORD", "NKP_BUNDLE_PATH", "KONVOY_IMAGE_BUNDLE",
     "KOMMANDER_IMAGE_BUNDLE", "KOMMANDER_CHARTS_BUNDLE"]),
   ("OUTPUT PATHS", ["OUTPUT_DIR", "KUBECONFIG_PATH"]),
   ("TIMINGS AND FLAGS",
    ["CLUSTER_CREATE_TIMEOUT", "KOMMANDER_INSTALL_TIMEOUT", "NODE_READY_TIMEOUT", "VERBOSE",
     "DRY_RUN", "FIPS_MODE"])]

/-- One `export KEY=value` line (app.py:599), reading the config with
`config.get(key, "")` and shell-quoting the value. -/
def envExportLine (config : List (String × String)) (key : String) : String :=
  "export " ++ key ++ "=" ++ shlexQuote ((alGet? config key).getD "")

/-- The per-section loop of `format_env_lines` (app.py:591): ruler, title,
ruler, one export line per key not in `skip_keys`, then a blank line. -/
def envSectionLines (config : List (String × String)) (skip_keys : List String) :
    List (String × List String) → List String
  | [] => []
  | (title, keys) :: rest =>
    [sepLine, "# " ++ title, sepLine]
      ++ keys.filterMap (fun key =>
        if key ∈ skip_keys then none else some (envExportLine config key))
      ++ [""]
      ++ envSectionLines config skip_keys rest

/-- The fixed derived-variable lines appended after the sections (app.py:601). -/
def envTrailerLines : List String :=
  ["export CONTROL_PLANE_NODES=\"$\x7bCONTROL_PLANE_1_ADDRESS\x7d $\x7bCONTROL_PLANE_2_ADDRESS\x7d $\x7bCONTROL_PLANE_3_ADDRESS\x7d\"",
   "export WORKER_NODES=\"$\x7bWORKER_1_ADDRESS\x7d $\x7bWORKER_2_ADDRESS\x7d $\x7bWORKER_3_ADDRESS\x7d $\x7bWORKER_4_ADDRESS\x7d\"",
   "export ALL_NODES=\"$\x7bCONTROL_PLANE_NODES\x7d $\x7bWORKER_NODES\x7d\"",
   "export CONTROL_PLANE_REPLICAS=$(echo $\x7bCONTROL_PLANE_NODES\x7d | wc -w)",
   "export WORKER_REPLICAS=$(echo $\x7bWORKER_NODES\x7d | wc -w)",
   ""]

/-- Mirrors `format_env_lines` (app.py:529). -/
def format_env_lines (config : List (String × String)) (skip_keys : List String) :
    List String :=
  ["# Generated by NKP Bastion Dashboard", "# Source this file before running deployment"]
    ++ envSectionLines config skip_keys section_headers
    ++ envTrailerLines

/-- The redaction loop of `persist_config` (app.py:616): on the copy of the
config, each sensitive key that is present is overwritten with
`"<redacted>"` when the original value is truthy, with `""` otherwise. -/
def redact_config (config : List (String × String)) : List (String × String) :=
  SENSITIVE_FIELDS.foldl
    (fun rc key =>
      if (alGet? rc key).isSome then
        alSet rc key (if pyTruthyOpt (alGet? config key) then "<redacted>" else "")
      else rc)
    config

/-- Mirrors `persist_config` (app.py:615): the pair of persisted artifacts,
the env-file lines (secrets skipped) and the redacted JSON config. -/
def persist_config (config : List (String × String)) :
    List String × List (String × String) :=
  (format_env_lines config SENSITIVE_FIELDS, redact_config config)

/-- Heap of Python dict objects, for making reference/aliasing semantics
explicit (addresses are list indices). -/
structure Heap where
  dicts : List (List (String × String))
deriving DecidableEq

/-- Dereference an address (out-of-range reads as an empty dict). -/
def Heap.get (h : Heap) (r : Nat) : List (String × String) :=
  (h.dicts.get? r).getD []

/-- Allocate a fresh dict object, returning its address. -/
def Heap.alloc (h : Heap) (d : List (String × String)) : Heap × Nat :=
  ({ dicts := h.dicts ++ [d] }, h.dicts.length)

/-- In-place assignment `h[r][k] = v`. -/
def Heap.setEntry (h : Heap) (r : Nat) (k v : String) : Heap :=
  { dicts := h.dicts.set r (alSet (h.get r) k v) }

/-- Mirrors `persist_config` (app.py:615) at the level of dict objects:
`config.copy()` allocates a fresh dict, the redaction loop mutates only
that copy, and the env lines are computed from the original.  Returns the
heap after the call, the address of the redacted copy (the return value),
and the env-file lines written. -/
def persist_config_heap (h : Heap) (r : Nat) : Heap × Nat × List String :=
  let config := h.get r
  let alloc := h.alloc config
  let h1 := alloc.1
  let r2 := alloc.2
  let h2 := SENSITIVE_FIELDS.foldl
    (fun hh key =>
      if (alGet? (hh.get r2) key).isSome then
        hh.setEntry r2 key (if pyTruthyOpt (alGet? config key) then "<redacted>" else "")
      else hh)
    h1
  (h2, r2, format_env_lines config SENSITIVE_FIELDS)

/-- The JSON body of a `/api/start` request (absent keys are `none`). -/
structure StartRequest where
  mode : Option String
  phases : Option (List String)
  prismCentralPassword : Option String
  prismCentralPasswordUpper : Option String
deriving DecidableEq

/-- HTTP result of `start_deployment`. -/
inductive StartResult where
  | rejected (message : String) (httpStatus : Nat)
  | started (message : String) (mode : String) (phases : List String)
      (runtime_env : List (String × String))
deriving DecidableEq

/-- Mirrors `start_deployment` (app.py:821).  `envPassword` is
`os.environ.get("PRISM_CENTRAL_PASSWORD")`.  The reject branches return
HTTP 400 with the world untouched; the success branch records
`current_mode`, queues the initial state update, and hands
`(mode, phases, runtime_env)` to the daemon thread (whose execution is the
separately modelled `run_deployment`). -/
def start_deployment (envPassword : Option String) (req : StartRequest) (w : World) :
    StartResult × World :=
  if w.active then (StartResult.rejected "A deployment is already running." 400, w)
  else
    let mode := req.mode.getD "automated"
    let phases := req.phases.getD ((alGet? PHASE_SETS mode).getD [])
    let prism_password :=
      if pyTruthyOpt req.prismCentralPassword then req.prismCentralPassword.getD ""
      else if pyTruthyOpt req.prismCentralPasswordUpper then req.prismCentralPasswordUpper.getD ""
      else ""
    if prism_password ≠ "" then
      let w2 := update_state { w with current_mode := mode } (some 0) (some "running")
        (some "Queued deployment")
      (StartResult.started ("Started " ++ mode ++ " deployment") mode phases
        [("PRISM_CENTRAL_PASSWORD", prism_password)], w2)
    else if pyTruthyOpt envPassword then
      let w2 := update_state { w with current_mode := mode } (some 0) (some "running")
        (some "Queued deployment")
      (StartResult.started ("Started " ++ mode ++ " deployment") mode phases
        [("PRISM_CENTRAL_PASSWORD", envPassword.getD "")], w2)
    else
      (StartResult.rejected
        "PRISM_CENTRAL_PASSWORD is required at runtime. Please provide it when prompted." 400, w)

/-- Python truthiness of an optional `state` value. -/
def pyTruthyStVal (o : Option StVal) : Bool :=
  match o with
  | none => false
  | some (StVal.num q) => q ≠ 0
  | some (StVal.str s) => !s.isEmpty

/-- Mirrors the generator of `stream` (app.py:865).  Each element of
`polls` is one iteration: `(some e, st)` means `log_queue.get` returned
event `e`; `(none, st)` means the 1-second poll timed out (`queue.Empty`)
with `st` the `state` dict at that moment, upon which the code breaks the
stream unless `state.get("running")` is truthy. -/
def event_stream : List (Option Event × StateDict) → List Event
  | [] => []
  | (some message, _) :: rest => message :: event_stream rest
  | (none, st) :: rest =>
    if pyTruthyStVal (alGet? st "running") then event_stream rest else []

/-- String field of a state dict, for specifications. -/
def stateStr (d : StateDict) (k : String) : Option String :=
  match alGet? d k with
  | some (StVal.str s) => some s
  | _ => none

/-- Numeric field of a state dict, for specifications. -/
def stateNum (d : StateDict) (k : String) : Option Rat :=
  match alGet? d k with
  | some (StVal.num q) => some q
  | _ => none

/-- The sequence of progress percentages published on the bus, in order. -/
def ptrace (events : List Event) : List Rat :=
  events.filterMap (fun e =>
    match e with
    | Event.progress (StVal.num q) _ _ => some q
    | _ => none)

/-- Auxiliary for reasoning about `runSteps`: the world reached after a run
of consecutive successful steps (exit code 0), each paired with the output
lines its child produced, starting at the given 1-based index. -/
def successFold (rules : List (String × String)) (mode : String) (total : Nat) :
    List ((String × List String) × List String) → Nat → World → World
  | [], _, w => w
  | (lc, lines) :: rest, index, w =>
    successFold rules mode total rest (index + 1)
      (stepOk lc.1 index total
        (processLines rules mode lines (addSpawn lc.2 (stepStart lc.1 index total w))))

theorem alGet?_alSet_self {α : Type} (d : List (String × α)) (k : String) (v : α) :
    alGet? (alSet d k v) k = some v := by
  induction d with
  | nil => simp [alSet, alGet?]
  | cons kv rest ih =>
    obtain ⟨k2, v2⟩ := kv
    by_cases h : k2 = k
    · simp [alSet, alGet?, h]
    · simp [alSet, alGet?, h, ih]

theorem alGet?_alSet_ne {α : Type} (d : List (String × α)) (k k2 : String) (v : α)
    (h : k ≠ k2) : alGet? (alSet d k v) k2 = alGet? d k2 := by
  induction d with
  | nil => simp [alSet, alGet?, h]
  | cons kv rest ih =>
    obtain ⟨k3, v3⟩ := kv
    by_cases h3 : k3 = k
    · subst h3
      simp [alSet, alGet?, h]
    · simp [alSet, alGet?, h3, ih]

theorem update_state_all_state (w : World) (p : Rat) (s t : String) :
    (update_state w (some p) (some s) (some t)).state =
      alSet (alSet (alSet w.state "progress" (StVal.num p)) "status" (StVal.str s))
        "step" (StVal.str t) := rfl

theorem stateStr_update_state_all (w : World) (p : Rat) (s t : String) :
    stateStr (update_state w (some p) (some s) (some t)).state "status" = some s := by
  rw [update_state_all_state]
  unfold stateStr
  rw [alGet?_alSet_ne _ _ _ _ (by decide), alGet?_alSet_self]

theorem stateNum_update_state_all (w : World) (p : Rat) (s t : String) :
    stateNum (update_state w (some p) (some s) (some t)).state "progress" = some p := by
  rw [update_state_all_state]
  unfold stateNum
  rw [alGet?_alSet_ne _ _ _ _ (by decide), alGet?_alSet_ne _ _ _ _ (by decide),
    alGet?_alSet_self]

theorem spawned_update_state (w : World) (p : Option Rat) (s t : Option String) :
    (update_state w p s t).spawned = w.spawned := rfl

theorem spawned_enqueue (w : World) (e : Event) : (enqueue w e).spawned = w.spawned := rfl

theorem spawned_stepStart (label : String) (index total : Nat) (w : World) :
    (stepStart label index total w).spawned = w.spawned := rfl

theorem spawned_processLine (rules : List (String × String)) (mode line : String) (w : World) :
    (processLine rules mode line w).spawned = w.spawned := by
  simp only [processLine]
  split <;> rfl

theorem spawned_processLines (rules : List (String × String)) (mode : String)
    (lines : List String) (w : World) :
    (processLines rules mode lines w).spawned = w.spawned := by
  induction lines generalizing w with
  | nil => rfl
  | cons line rest ih =>
    show (processLines rules mode rest (processLine rules mode line w)).spawned = w.spawned
    rw [ih, spawned_processLine]

theorem state_enqueue (w : World) (e : Event) : (enqueue w e).state = w.state := rfl

theorem state_processLine (rules : List (String × String)) (mode line : String) (w : World) :
    (processLine rules mode line w).state = w.state := by
  simp only [processLine]
  split <;> rfl

theorem state_processLines (rules : List (String × String)) (mode : String)
    (lines : List String) (w : World) :
    (processLines rules mode lines w).state = w.state := by
  induction lines generalizing w with
  | nil => rfl
  | cons line rest ih =>
    show (processLines rules mode rest (processLine rules mode line w)).state = w.state
    rw [ih, state_processLine]

theorem events_processLine (rules : List (String × String)) (mode line : String) (w : World) :
    ∃ es, (processLine rules mode line w).events = w.events ++ es := by
  simp only [processLine]
  split
  · exact ⟨_, List.append_assoc _ _ _⟩
  · exact ⟨_, rfl⟩

theorem events_processLines (rules : List (String × String)) (mode : String)
    (lines : List String) (w : World) :
    ∃ es, (processLines rules mode lines w).events = w.events ++ es := by
  induction lines generalizing w with
  | nil => exact ⟨[], by simp [processLines]⟩
  | cons line rest ih =>
    obtain ⟨es1, h1⟩ := events_processLine rules mode line w
    obtain ⟨es2, h2⟩ := ih (processLine rules mode line w)
    exact ⟨es1 ++ es2, by
      show (processLines rules mode rest (processLine rules mode line w)).events = _
      rw [h2, h1, List.append_assoc]⟩

/-- C2: a start request while `deployment_active` is true is rejected with
HTTP 400 (non-2xx) and has no side effects: the returned world is the
input world unchanged (no state, progress, step or mode mutation, no spawn
recorded), and the result is a rejection, so no run thread and hence no
child process is ever created for the request. -/
theorem start_rejected_while_active (envPassword : Option String) (req : StartRequest)
    (w : World) (h : w.active = true) :
    start_deployment envPassword req w =
      (StartResult.rejected "A deployment is already running." 400, w) := by
  simp [start_deployment, h]

/-- Witness for `start_rejected_while_active` at a concrete active world. -/
theorem start_rejected_while_active_witness :
    start_deployment (some "pw") ⟨some "automated", none, some "pw", none⟩
        { initialWorld with active := true } =
      (StartResult.rejected "A deployment is already running." 400,
        { initialWorld with active := true }) :=
  start_rejected_while_active (some "pw") ⟨some "automated", none, some "pw", none⟩
    { initialWorld with active := true } rfl

/-- C3 is false on the code: when the spawn of the first step raises, the
exception escapes `run_deployment` (there is no try/finally), so
`deployment_active` is left `True`, the status stays `running` rather than
surfacing a run failure, and every subsequent start request is rejected,
contradicting the claimed unconditional release of the run lock. -/
theorem spawn_error_leaves_run_lock_held :
    (run_deployment [] "phased" ["Deploy NKP"] [SpawnResult.spawnError] initialWorld).2 =
        RunOutcome.raised
    ∧ (run_deployment [] "phased" ["Deploy NKP"] [SpawnResult.spawnError]
        initialWorld).1.active = true
    ∧ stateStr (run_deployment [] "phased" ["Deploy NKP"] [SpawnResult.spawnError]
        initialWorld).1.state "status" = some "running"
    ∧ (start_deployment (some "pw") ⟨some "automated", none, some "pw", none⟩
        (run_deployment [] "phased" ["Deploy NKP"] [SpawnResult.spawnError]
          initialWorld).1).1 =
      StartResult.rejected "A deployment is already running." 400 := by
  refine ⟨rfl, rfl, rfl, rfl⟩

/-- C4 is false on the code: `build_command_sequence` resolves a phased
step list containing an unknown label by silently skipping it (the
`continue` at app.py:659) and returning the remaining mapped commands; no
configuration error is raised. -/
theorem unknown_label_silently_skipped_cex :
    build_command_sequence "phased" ["Not A Real Phase", "Deploy NKP"] =
      [("Deploy NKP", ["/bin/bash", scriptPath "deploy-nkp.sh"])] := rfl

/-- C4 amended: a label with no entry in `PHASE_COMMANDS` is silently
skipped by phased-mode resolution; removing it from the phase list leaves
the resolved command sequence unchanged (so no process is ever spawned for
the unknown label, and the remaining labels still resolve). -/
theorem unknown_label_skipped (u : String) (hu : alGet? PHASE_COMMANDS u = none)
    (pre post : List String) :
    build_command_sequence "phased" (pre ++ u :: post) =
      build_command_sequence "phased" (pre ++ post) := by
  simp [build_command_sequence, hu]

/-- Witness for `unknown_label_skipped` at a concrete unknown label. -/
theorem unknown_label_skipped_witness :
    build_command_sequence "phased" ["Prepare nodes", "Bogus phase", "Deploy NKP"] =
      build_command_sequence "phased" ["Prepare nodes", "Deploy NKP"] :=
  unknown_label_skipped "Bogus phase" rfl ["Prepare nodes"] ["Deploy NKP"]

/-- C5 is false on the code: the stream generator breaks on
`state.get("running")`, a key that no code path ever writes (`update_state`
writes only `progress`, `status` and `step`), so the first poll timeout
ends the stream even while a run is active.  Here the state is exactly the
one `run_deployment` installs at run start (app.py:684): the run is active
and `status` is `running`, the queue is empty for one poll, yet the stream
terminates, and an event arriving right after the timeout is never
delivered. -/
theorem stream_ends_on_first_idle_poll_while_active :
    (update_state { initialWorld with active := true } (some 0) (some "running")
        (some "Initializing deployment")).active = true
    ∧ stateStr (update_state { initialWorld with active := true } (some 0) (some "running")
        (some "Initializing deployment")).state "status" = some "running"
    ∧ event_stream [(none, (update_state { initialWorld with active := true } (some 0)
        (some "running") (some "Initializing deployment")).state)] = []
    ∧ event_stream [(none, (update_state { initialWorld with active := true } (some 0)
        (some "running") (some "Initializing deployment")).state),
        (some (Event.log "late line"), (update_state { initialWorld with active := true }
          (some 0) (some "running") (some "Initializing deployment")).state)] = [] := by
  refine ⟨rfl, rfl, rfl, rfl⟩

/-- C6: the phase classifier is a pure function of `(line, mode)` (hence
deterministic on every call); it lower-cases the line and returns the label
of the FIRST rule, in registration order, whose keyword occurs in it — so a
line matching two rules gets the earlier rule's label — and when no rule
matches it returns the terminal verification label exactly when the mode is
`automated` and the lower-cased line contains the token `verify`, otherwise
no label. -/
theorem detect_phase_first_match (rules : List (String × String)) (line mode : String) :
    (∀ j kw lbl, rules.get? j = some (kw, lbl) → strContains (strLower line) kw = true →
      (∀ k kw2 lbl2, k < j → rules.get? k = some (kw2, lbl2) →
        strContains (strLower line) kw2 = false) →
      detect_phase rules line mode = some lbl)
    ∧ ((∀ kw lbl, (kw, lbl) ∈ rules → strContains (strLower line) kw = false) →
      detect_phase rules line mode =
        if mode = "automated" && strContains (strLower line) "verify" then
          some "Verify deployment"
        else none) := by
  constructor
  · intro j kw lbl hj hmatch hearlier
    have hfind : rules.find? (fun kp => strContains (strLower line) kp.1) = some (kw, lbl) := by
      induction rules generalizing j with
      | nil => simp at hj
      | cons r rest ih =>
        cases j with
        | zero =>
          have hr : r = (kw, lbl) := by simpa using hj
          subst hr
          exact List.find?_cons_of_pos _ hmatch
        | succ j =>
          have h0 : strContains (strLower line) r.1 = false :=
            hearlier 0 r.1 r.2 (Nat.succ_pos j) rfl
          rw [List.find?_cons_of_neg _ (by simp [h0])]
          exact ih j (by simpa using hj)
            (fun k kw2 lbl2 hk hget =>
              hearlier (k + 1) kw2 lbl2 (Nat.succ_lt_succ hk) (by simpa using hget))
    simp [detect_phase, hfind]
  · intro hnone
    have hfind : rules.find? (fun kp => strContains (strLower line) kp.1) = none := by
      rw [List.find?_eq_none]
      intro kp hmem
      simp [hnone kp.1 kp.2 hmem]
    simp [detect_phase, hfind]

/-- Witness for `detect_phase_first_match`: a line matching both rules gets
the earlier rule's label; a non-matching line with the token `verify` in
automated mode falls back to the terminal verification label. -/
theorem detect_phase_first_match_witness :
    detect_phase [("deploy", "Deploy NKP"), ("verify", "Verify deployment")]
        "Deploy and VERIFY done" "phased" = some "Deploy NKP"
    ∧ detect_phase [("deploy", "Deploy NKP")] "now verifying" "automated" =
        some "Verify deployment" := by
  constructor
  · exact (detect_phase_first_match [("deploy", "Deploy NKP"),
      ("verify", "Verify deployment")] "Deploy and VERIFY done" "phased").1
      0 "deploy" "Deploy NKP" rfl (by decide)
      (fun k kw2 lbl2 hk _ => absurd hk (Nat.not_lt_zero k))
  · have h := (detect_phase_first_match [("deploy", "Deploy NKP")] "now verifying"
      "automated").2
      (by
        intro kw lbl hmem
        simp only [List.mem_singleton, Prod.mk.injEq] at hmem
        obtain ⟨rfl, rfl⟩ := hmem
        decide)
    exact h.trans (by decide)

/-- C10: `persist_config` never mutates the caller's dict.  In the explicit
heap model of the dict objects, redaction happens only on the freshly
allocated copy (`config.copy()`), which is a different address from the
argument, so the dict at the caller's address holds exactly the same
key-value entries after the call as before. -/
theorem persist_config_heap_preserves_input (h : Heap) (r : Nat)
    (hr : r < h.dicts.length) :
    ((persist_config_heap h r).1).get r = h.get r ∧ (persist_config_heap h r).2.1 ≠ r := by
  have hne : h.dicts.length ≠ r := (Nat.ne_of_lt hr).symm
  have halloc : (Heap.alloc h (h.get r)).1.get r = h.get r := by
    show ((h.dicts ++ [h.get r]).get? r).getD [] = (h.dicts.get? r).getD []
    rw [List.get?_eq_getElem?, List.get?_eq_getElem?, List.getElem?_append_left hr]
  have hset : ∀ (hh : Heap) (i : Nat) (k v : String), i ≠ r →
      (hh.setEntry i k v).get r = hh.get r := by
    intro hh i k v hir
    show ((hh.dicts.set i _).get? r).getD [] = (hh.dicts.get? r).getD []
    rw [List.get?_eq_getElem?, List.get?_eq_getElem?, List.getElem?_set_ne hir]
  constructor
  · simp only [persist_config_heap, SENSITIVE_FIELDS, List.foldl_cons, List.foldl_nil]
    split
    · rw [hset _ _ _ _ (show (h.alloc (h.get r)).2 ≠ r from hne), halloc]
    · exact halloc
  · simpa [persist_config_heap, Heap.alloc] using hne

/-- Witness for `persist_config_heap_preserves_input` on a one-dict heap. -/
theorem persist_config_heap_preserves_input_witness :
    ((persist_config_heap ⟨[[("PRISM_CENTRAL_PASSWORD", "hunter2")]]⟩ 0).1).get 0 =
        Heap.get ⟨[[("PRISM_CENTRAL_PASSWORD", "hunter2")]]⟩ 0
    ∧ (persist_config_heap ⟨[[("PRISM_CENTRAL_PASSWORD", "hunter2")]]⟩ 0).2.1 ≠ 0 :=
  persist_config_heap_preserves_input ⟨[[("PRISM_CENTRAL_PASSWORD", "hunter2")]]⟩ 0
    (by decide)


theorem envSectionLines_congr (c c2 : List (String × String)) (skip : List String)
    (hagree : ∀ k, k ∉ skip → alGet? c k = alGet? c2 k) :
    ∀ sections, envSectionLines c skip sections = envSectionLines c2 skip sections := by
  intro sections
  induction sections with
  | nil => rfl
  | cons s rest ih =>
    obtain ⟨title, keys⟩ := s
    have hkeys : keys.filterMap
        (fun key => if key ∈ skip then none else some (envExportLine c key)) =
        keys.filterMap
        (fun key => if key ∈ skip then none else some (envExportLine c2 key)) := by
      induction keys with
      | nil => rfl
      | cons key ks ihk =>
        by_cases hk : key ∈ skip
        · simp only [List.filterMap_cons, if_pos hk, ihk]
        · have hline : envExportLine c key = envExportLine c2 key := by
            unfold envExportLine
            rw [hagree key hk]
          simp only [List.filterMap_cons, if_neg hk, ihk, hline]
    simp only [envSectionLines, hkeys, ih]

/-- C7: the runtime secret never reaches either persisted artifact.  The
env file skips the `PRISM_CENTRAL_PASSWORD` field entirely, so two configs
that differ only in the secret produce identical env-file contents (the
secret value cannot influence a single byte of it); the JSON artifact
stores the redaction marker for that field whenever the secret is
non-empty.  (The secret reaches the child only through the `runtime_env`
handed to the spawned process by `start_deployment`, never through
`persist_config`.) -/
theorem persist_config_secret_free (c c2 : List (String × String))
    (hagree : ∀ k, k ≠ "PRISM_CENTRAL_PASSWORD" → alGet? c k = alGet? c2 k) :
    (persist_config c).1 = (persist_config c2).1
    ∧ (∀ v, alGet? c "PRISM_CENTRAL_PASSWORD" = some v → v ≠ "" →
        alGet? (persist_config c).2 "PRISM_CENTRAL_PASSWORD" = some "<redacted>") := by
  constructor
  · show format_env_lines c SENSITIVE_FIELDS = format_env_lines c2 SENSITIVE_FIELDS
    unfold format_env_lines
    rw [envSectionLines_congr c c2 SENSITIVE_FIELDS]
    intro k hk
    apply hagree
    intro hkeq
    exact hk (by rw [hkeq]; exact List.mem_singleton.mpr rfl)
  · intro v hv hne
    show alGet? (redact_config c) "PRISM_CENTRAL_PASSWORD" = some "<redacted>"
    have hvempty : v.isEmpty = false := by
      cases hve : v.isEmpty
      · rfl
      · exact absurd ((String.isEmpty_iff v).mp hve) hne
    have htruthy : pyTruthyOpt (some v) = true := by
      simp [pyTruthyOpt, hvempty]
    simp only [redact_config, SENSITIVE_FIELDS, List.foldl_cons, List.foldl_nil, hv,
      Option.isSome_some, htruthy, if_true]
    exact alGet?_alSet_self c "PRISM_CENTRAL_PASSWORD" "<redacted>"

/-- Witness for `persist_config_secret_free`: two concrete configs
differing only in the secret. -/
theorem persist_config_secret_free_witness :
    (persist_config [("CLUSTER_NAME", "demo"), ("PRISM_CENTRAL_PASSWORD", "hunter2")]).1 =
      (persist_config [("CLUSTER_NAME", "demo"),
        ("PRISM_CENTRAL_PASSWORD", "other-secret")]).1
    ∧ alGet? (persist_config [("CLUSTER_NAME", "demo"),
        ("PRISM_CENTRAL_PASSWORD", "hunter2")]).2 "PRISM_CENTRAL_PASSWORD" =
      some "<redacted>" := by
  have h := persist_config_secret_free
    [("CLUSTER_NAME", "demo"), ("PRISM_CENTRAL_PASSWORD", "hunter2")]
    [("CLUSTER_NAME", "demo"), ("PRISM_CENTRAL_PASSWORD", "other-secret")]
    (by
      intro k hk
      by_cases h1 : "CLUSTER_NAME" = k
      · simp [alGet?, h1]
      · have h2 : ¬ ("PRISM_CENTRAL_PASSWORD" = k) := fun hh => hk hh.symm
        simp [alGet?, h1, h2])
  exact ⟨h.1, h.2 "hunter2" rfl (by decide)⟩

theorem runSteps_fail_step (rules : List (String × String)) (mode : String) (total : Nat)
    (label : String) (cmd : List String) (rest : List (String × List String))
    (lines : List String) (code : Int) (restBeh : List SpawnResult) (index : Nat)
    (w : World) (hcode : code ≠ 0) :
    runSteps rules mode total ((label, cmd) :: rest)
        (SpawnResult.ran lines code :: restBeh) index w =
      (stepFail label code index total
        (processLines rules mode lines (addSpawn cmd (stepStart label index total w))),
       RunOutcome.normal) := by
  simp only [runSteps, List.headD_cons]
  rw [if_pos hcode]

theorem runSteps_ok_step (rules : List (String × String)) (mode : String) (total : Nat)
    (label : String) (cmd : List String) (rest : List (String × List String))
    (lines : List String) (behs : List SpawnResult) (index : Nat) (w : World) :
    runSteps rules mode total ((label, cmd) :: rest)
        (SpawnResult.ran lines 0 :: behs) index w =
      runSteps rules mode total rest behs (index + 1)
        (stepOk label index total
          (processLines rules mode lines (addSpawn cmd (stepStart label index total w)))) := by
  simp only [runSteps, List.headD_cons, List.tail_cons]
  rw [if_neg (by decide)]

theorem runSteps_nil_behs_step (rules : List (String × String)) (mode : String) (total : Nat)
    (label : String) (cmd : List String) (rest : List (String × List String))
    (index : Nat) (w : World) :
    runSteps rules mode total ((label, cmd) :: rest) [] index w =
      runSteps rules mode total rest [] (index + 1)
        (stepOk label index total
          (processLines rules mode [] (addSpawn cmd (stepStart label index total w)))) := by
  simp only [runSteps, List.headD_nil, List.tail_nil]
  rw [if_neg (by decide)]

theorem runSteps_spawn_error_step (rules : List (String × String)) (mode : String)
    (total : Nat) (label : String) (cmd : List String)
    (rest : List (String × List String)) (behs : List SpawnResult) (index : Nat)
    (w : World) :
    runSteps rules mode total ((label, cmd) :: rest)
        (SpawnResult.spawnError :: behs) index w =
      (stepStart label index total w, RunOutcome.raised) := by
  simp only [runSteps, List.headD_cons]

theorem runSteps_success_prefix (rules : List (String × String)) (mode : String)
    (total : Nat) :
    ∀ (pre : List ((String × List String) × List String))
      (cmds : List (String × List String)) (behs : List SpawnResult) (index : Nat)
      (w : World),
      runSteps rules mode total (pre.map Prod.fst ++ cmds)
          (pre.map (fun pc => SpawnResult.ran pc.2 0) ++ behs) index w =
        runSteps rules mode total cmds behs (index + pre.length)
          (successFold rules mode total pre index w) := by
  intro pre
  induction pre with
  | nil =>
    intro cmds behs index w
    simp [successFold]
  | cons pc pre ih =>
    intro cmds behs index w
    obtain ⟨⟨lbl0, cmd0⟩, lines0⟩ := pc
    simp only [List.map_cons, List.cons_append]
    rw [runSteps_ok_step, ih]
    have hidx : index + 1 + pre.length = index + (pre.length + 1) := by omega
    simp only [successFold, List.length_cons, hidx]

theorem spawned_addSpawn (cmd : List String) (w : World) :
    (addSpawn cmd w).spawned = w.spawned ++ [cmd] := rfl

theorem spawned_stepOk (label : String) (index total : Nat) (w : World) :
    (stepOk label index total w).spawned = w.spawned := rfl

theorem spawned_stepFail (label : String) (code : Int) (index total : Nat) (w : World) :
    (stepFail label code index total w).spawned = w.spawned := rfl

theorem spawned_successFold (rules : List (String × String)) (mode : String) (total : Nat) :
    ∀ (pre : List ((String × List String) × List String)) (index : Nat) (w : World),
      (successFold rules mode total pre index w).spawned =
        w.spawned ++ pre.map (fun pc => pc.1.2) := by
  intro pre
  induction pre with
  | nil => intro index w; simp [successFold]
  | cons pc pre ih =>
    intro index w
    obtain ⟨⟨lbl0, cmd0⟩, lines0⟩ := pc
    simp only [successFold, ih, spawned_stepOk, spawned_processLines, spawned_addSpawn,
      spawned_stepStart, List.map_cons]
    simp [List.append_assoc]

theorem stepFail_state (label : String) (code : Int) (index total : Nat) (w : World) :
    stateStr (stepFail label code index total w).state "status" = some "error"
    ∧ stateNum (stepFail label code index total w).state "progress" =
        some ((index : Rat) / (total : Rat) * 100) := by
  constructor
  · exact stateStr_update_state_all _ _ _ _
  · exact stateNum_update_state_all _ _ _ _

theorem stepFail_event_mem (label : String) (code : Int) (index total : Nat) (w : World) :
    Event.status (label ++ " failed with exit code " ++ toString code) ∈
      (stepFail label code index total w).events := by
  simp [stepFail, update_state, enqueue, List.mem_append]

theorem finishRun_state (w : World) :
    stateNum (finishRun w).state "progress" = some 100
    ∧ stateStr (finishRun w).state "status" = some "complete"
    ∧ (finishRun w).active = false := by
  refine ⟨?_, ?_, rfl⟩
  · exact stateNum_update_state_all _ _ _ _
  · exact stateStr_update_state_all _ _ _ _

theorem take_len_succ_append {α : Type} (A : List α) (x : α) (B : List α) :
    (A ++ x :: B).take (A.length + 1) = A ++ [x] := by
  induction A with
  | nil => simp
  | cons a A ih => simp [List.take_succ_cons, ih]

/-- C1: stop on first failure.  For every mode, rule table and resolved
step list, when the steps before the 1-based index `i = pre.length + 1` all
exit 0 and the step at index `i` (with label `label`) exits with a non-zero
code, `run_deployment` returns normally having published the failure
`Status` event, set the state status to `error` and the progress to
`i / n * 100` (counting the failed step, `n` the resolved length), and
spawned exactly the first `i` commands — the argv of every later step is
never invoked. -/
theorem run_stops_on_first_failing_step (rules : List (String × String)) (mode : String)
    (phases : List String) (pre : List ((String × List String) × List String))
    (label : String) (cmd lines : List String) (code : Int)
    (rest : List (String × List String)) (restBeh : List SpawnResult)
    (hcode : code ≠ 0)
    (hcmds : build_command_sequence mode phases = pre.map Prod.fst ++ (label, cmd) :: rest) :
    (run_deployment rules mode phases
        (pre.map (fun pc => SpawnResult.ran pc.2 0) ++ SpawnResult.ran lines code :: restBeh)
        initialWorld).2 = RunOutcome.normal
    ∧ Event.status (label ++ " failed with exit code " ++ toString code) ∈
        (run_deployment rules mode phases
          (pre.map (fun pc => SpawnResult.ran pc.2 0) ++
            SpawnResult.ran lines code :: restBeh) initialWorld).1.events
    ∧ stateStr (run_deployment rules mode phases
        (pre.map (fun pc => SpawnResult.ran pc.2 0) ++
          SpawnResult.ran lines code :: restBeh) initialWorld).1.state "status" =
        some "error"
    ∧ stateNum (run_deployment rules mode phases
        (pre.map (fun pc => SpawnResult.ran pc.2 0) ++
          SpawnResult.ran lines code :: restBeh) initialWorld).1.state "progress" =
        some (((pre.length + 1 : Nat) : Rat) /
          (((build_command_sequence mode phases).length : Nat) : Rat) * 100)
    ∧ (run_deployment rules mode phases
        (pre.map (fun pc => SpawnResult.ran pc.2 0) ++
          SpawnResult.ran lines code :: restBeh) initialWorld).1.spawned =
        ((build_command_sequence mode phases).take (pre.length + 1)).map Prod.snd
    ∧ (run_deployment rules mode phases
        (pre.map (fun pc => SpawnResult.ran pc.2 0) ++
          SpawnResult.ran lines code :: restBeh) initialWorld).1.active = false := by
  have hn0 : (build_command_sequence mode phases).length ≠ 0 := by
    rw [hcmds]
    simp
  have htot : (if (build_command_sequence mode phases).length = 0 then 1
      else (build_command_sequence mode phases).length) =
      (build_command_sequence mode phases).length := if_neg hn0
  simp only [run_deployment]
  rw [htot, hcmds, runSteps_success_prefix, runSteps_fail_step rules mode _ label cmd rest
    lines code restBeh _ _ hcode, Nat.add_comm 1 pre.length]
  refine ⟨rfl, stepFail_event_mem _ _ _ _ _, (stepFail_state _ _ _ _ _).1,
    (stepFail_state _ _ _ _ _).2, ?_, rfl⟩
  simp only [spawned_stepFail, spawned_processLines, spawned_addSpawn, spawned_stepStart,
    spawned_successFold, spawned_update_state, spawned_enqueue]
  rw [show pre.length = (pre.map Prod.fst).length from (List.length_map _ _).symm,
    take_len_succ_append]
  simp [initialWorld, List.map_append, List.map_map, Function.comp]

/-- Witness for `run_stops_on_first_failing_step`: phased run with two
steps, the first exits 0 and the second exits 137; the run errors at
progress 100 = 2/2*100 having spawned both argv and no more. -/
theorem run_stops_on_first_failing_step_witness :
    (run_deployment [] "phased" ["Deploy NKP", "Verify deployment"]
        [SpawnResult.ran [] 0, SpawnResult.ran [] 137] initialWorld).2 = RunOutcome.normal
    ∧ Event.status ("Verify deployment" ++ " failed with exit code " ++ toString (137 : Int)) ∈
        (run_deployment [] "phased" ["Deploy NKP", "Verify deployment"]
          [SpawnResult.ran [] 0, SpawnResult.ran [] 137] initialWorld).1.events
    ∧ stateStr (run_deployment [] "phased" ["Deploy NKP", "Verify deployment"]
        [SpawnResult.ran [] 0, SpawnResult.ran [] 137] initialWorld).1.state "status" =
        some "error"
    ∧ stateNum (run_deployment [] "phased" ["Deploy NKP", "Verify deployment"]
        [SpawnResult.ran [] 0, SpawnResult.ran [] 137] initialWorld).1.state "progress" =
        some 100
    ∧ (run_deployment [] "phased" ["Deploy NKP", "Verify deployment"]
        [SpawnResult.ran [] 0, SpawnResult.ran [] 137] initialWorld).1.spawned =
        [["/bin/bash", scriptPath "deploy-nkp.sh"],
         ["/bin/bash", scriptPath "verify-deployment.sh"]]
    ∧ (run_deployment [] "phased" ["Deploy NKP", "Verify deployment"]
        [SpawnResult.ran [] 0, SpawnResult.ran [] 137] initialWorld).1.active = false := by
  have h := run_stops_on_first_failing_step [] "phased" ["Deploy NKP", "Verify deployment"]
    [(("Deploy NKP", ["/bin/bash", scriptPath "deploy-nkp.sh"]), [])]
    "Verify deployment" ["/bin/bash", scriptPath "verify-deployment.sh"] [] 137 [] []
    (by decide) rfl
  obtain ⟨h1, h2, h3, h4, h5, h6⟩ := h
  refine ⟨h1, h2, h3, h4.trans ?_, h5.trans rfl, h6⟩
  have hlen : (build_command_sequence "phased" ["Deploy NKP", "Verify deployment"]).length = 2 :=
    rfl
  rw [hlen]
  norm_num

theorem ptrace_append (es1 es2 : List Event) :
    ptrace (es1 ++ es2) = ptrace es1 ++ ptrace es2 :=
  List.filterMap_append es1 es2 _

theorem ptrace_update_state_all (w : World) (p : Rat) (s t : String) :
    ptrace (update_state w (some p) (some s) (some t)).events = ptrace w.events ++ [p] := by
  have hd : stGet (alSet (alSet (alSet w.state "progress" (StVal.num p)) "status"
      (StVal.str s)) "step" (StVal.str t)) "progress" (StVal.num 0) = StVal.num p := by
    unfold stGet
    rw [alGet?_alSet_ne _ _ _ _ (by decide), alGet?_alSet_ne _ _ _ _ (by decide),
      alGet?_alSet_self]
    rfl
  simp only [update_state, enqueue, ptrace, hd, List.filterMap_append, List.filterMap_cons,
    List.filterMap_nil]

theorem ptrace_addSpawn (cmd : List String) (w : World) :
    ptrace (addSpawn cmd w).events = ptrace w.events := rfl

theorem ptrace_stepStart (label : String) (index total : Nat) (w : World) :
    ptrace (stepStart label index total w).events =
      ptrace w.events ++ [((index : Rat) - 1) / (total : Rat) * 100] := by
  unfold stepStart
  rw [ptrace_update_state_all]
  simp [enqueue, ptrace, List.filterMap_append]

theorem ptrace_stepOk (label : String) (index total : Nat) (w : World) :
    ptrace (stepOk label index total w).events =
      ptrace w.events ++ [(index : Rat) / (total : Rat) * 100] := by
  unfold stepOk
  rw [ptrace_update_state_all]
  simp [enqueue, ptrace, List.filterMap_append]

theorem ptrace_stepFail (label : String) (code : Int) (index total : Nat) (w : World) :
    ptrace (stepFail label code index total w).events =
      ptrace w.events ++ [(index : Rat) / (total : Rat) * 100] := by
  simp only [stepFail]
  rw [ptrace_update_state_all]
  simp [enqueue, ptrace, List.filterMap_append]

theorem ptrace_finishRun (w : World) :
    ptrace (finishRun w).events = ptrace w.events ++ [100] := by
  simp only [finishRun]
  rw [ptrace_update_state_all]
  simp [enqueue, ptrace, List.filterMap_append]

theorem ptrace_processLine (rules : List (String × String)) (mode line : String)
    (w : World) :
    ptrace (processLine rules mode line w).events = ptrace w.events := by
  simp only [processLine]
  split
  · simp [enqueue, ptrace, List.filterMap_append]
  · simp [enqueue, ptrace, List.filterMap_append]

theorem ptrace_processLines (rules : List (String × String)) (mode : String)
    (lines : List String) (w : World) :
    ptrace (processLines rules mode lines w).events = ptrace w.events := by
  induction lines generalizing w with
  | nil => rfl
  | cons line rest ih =>
    show ptrace (processLines rules mode rest (processLine rules mode line w)).events = _
    rw [ih, ptrace_processLine]

theorem chain_le_append_singleton (l : List Rat) (x : Rat)
    (hl : List.Chain' (· ≤ ·) l) (hx : ∀ q ∈ l.getLast?, q ≤ x) :
    List.Chain' (· ≤ ·) (l ++ [x]) := by
  rw [List.chain'_append]
  refine ⟨hl, List.chain'_singleton x, ?_⟩
  intro a ha y hy
  simp only [List.head?_cons, Option.mem_some_iff] at hy
  subst hy
  exact hx a ha

theorem progress_step_le (index total : Nat) (htot : 0 < total) :
    ((index : Rat) - 1) / (total : Rat) * 100 ≤ (index : Rat) / (total : Rat) * 100 := by
  have hc : (0 : Rat) < (total : Rat) := by exact_mod_cast htot
  have h1 : ((index : Rat) - 1) / (total : Rat) ≤ (index : Rat) / (total : Rat) :=
    (div_le_div_right hc).mpr (by linarith)
  linarith [mul_le_mul_of_nonneg_right h1 (by norm_num : (0 : Rat) ≤ 100)]

theorem progress_le_100 (index total : Nat) (htot : 0 < total) (h : index ≤ total + 1) :
    ((index : Rat) - 1) / (total : Rat) * 100 ≤ 100 := by
  have hc : (0 : Rat) < (total : Rat) := by exact_mod_cast htot
  have h1 : ((index : Rat) - 1) / (total : Rat) ≤ 1 := by
    rw [div_le_one hc]
    have h2 : (index : Rat) ≤ (total : Rat) + 1 := by exact_mod_cast h
    linarith
  linarith [mul_le_mul_of_nonneg_right h1 (by norm_num : (0 : Rat) ≤ 100)]

theorem cast_succ_sub_one (index : Nat) : ((index + 1 : Nat) : Rat) - 1 = (index : Rat) := by
  push_cast
  ring

theorem ptrace_enqueue_status (w : World) (s : String) :
    ptrace (enqueue w (Event.status s)).events = ptrace w.events := by
  simp [enqueue, ptrace, List.filterMap_append]

theorem ptrace_enqueue_log (w : World) (s : String) :
    ptrace (enqueue w (Event.log s)).events = ptrace w.events := by
  simp [enqueue, ptrace, List.filterMap_append]

theorem runSteps_ptrace_mono (rules : List (String × String)) (mode : String) (total : Nat)
    (htot : 0 < total) :
    ∀ (cmds : List (String × List String)) (behs : List SpawnResult) (index : Nat)
      (w : World),
      1 ≤ index → index + cmds.length ≤ total + 1 →
      List.Chain' (· ≤ ·) (ptrace w.events) →
      (∀ q ∈ (ptrace w.events).getLast?, q ≤ ((index : Rat) - 1) / (total : Rat) * 100) →
      List.Chain' (· ≤ ·)
        (ptrace (runSteps rules mode total cmds behs index w).1.events) := by
  intro cmds
  induction cmds with
  | nil =>
    intro behs index w hidx hbound hmono hlast
    show List.Chain' (· ≤ ·) (ptrace (finishRun w).events)
    rw [ptrace_finishRun]
    apply chain_le_append_singleton _ _ hmono
    intro q hq
    exact le_trans (hlast q hq) (progress_le_100 index total htot (by simpa using hbound))
  | cons c rest ih =>
    intro behs index w hidx hbound hmono hlast
    obtain ⟨label, cmd⟩ := c
    have hbound2 : index + 1 + rest.length ≤ total + 1 := by
      simp only [List.length_cons] at hbound
      omega
    have hmono1 : List.Chain' (· ≤ ·)
        (ptrace w.events ++ [((index : Rat) - 1) / (total : Rat) * 100]) :=
      chain_le_append_singleton _ _ hmono hlast
    have hokArg : ∀ L : List String,
        List.Chain' (· ≤ ·) (ptrace (stepOk label index total
          (processLines rules mode L (addSpawn cmd (stepStart label index total w)))).events)
        ∧ (∀ q ∈ (ptrace (stepOk label index total
            (processLines rules mode L
              (addSpawn cmd (stepStart label index total w)))).events).getLast?,
            q ≤ (((index + 1 : Nat) : Rat) - 1) / (total : Rat) * 100) := by
      intro L
      have he : ptrace (stepOk label index total
          (processLines rules mode L (addSpawn cmd (stepStart label index total w)))).events =
          ptrace w.events ++ [((index : Rat) - 1) / (total : Rat) * 100] ++
            [(index : Rat) / (total : Rat) * 100] := by
        rw [ptrace_stepOk, ptrace_processLines, ptrace_addSpawn, ptrace_stepStart]
      rw [he]
      constructor
      · apply chain_le_append_singleton _ _ hmono1
        intro q hq
        simp only [List.getLast?_concat, Option.mem_some_iff] at hq
        subst hq
        exact progress_step_le index total htot
      · intro q hq
        simp only [List.getLast?_concat, Option.mem_some_iff] at hq
        subst hq
        rw [cast_succ_sub_one]
    cases behs with
    | nil =>
      rw [runSteps_nil_behs_step]
      exact ih [] (index + 1) _ (by omega) hbound2 (hokArg []).1 (hokArg []).2
    | cons b bt =>
      cases b with
      | spawnError =>
        rw [runSteps_spawn_error_step]
        show List.Chain' (· ≤ ·) (ptrace (stepStart label index total w).events)
        rw [ptrace_stepStart]
        exact hmono1
      | ran lines c2 =>
        by_cases hc : c2 = 0
        · subst hc
          rw [runSteps_ok_step]
          exact ih bt (index + 1) _ (by omega) hbound2 (hokArg lines).1 (hokArg lines).2
        · rw [runSteps_fail_step rules mode total label cmd rest lines c2 bt index w hc]
          show List.Chain' (· ≤ ·) (ptrace (stepFail label c2 index total
            (processLines rules mode lines
              (addSpawn cmd (stepStart label index total w)))).events)
          rw [ptrace_stepFail, ptrace_processLines, ptrace_addSpawn, ptrace_stepStart]
          apply chain_le_append_singleton _ _ hmono1
          intro q hq
          simp only [List.getLast?_concat, Option.mem_some_iff] at hq
          subst hq
          exact progress_step_le index total htot

theorem runSteps_all_success (rules : List (String × String)) (mode : String) (total : Nat) :
    ∀ (cmds : List (String × List String)) (behs : List SpawnResult) (index : Nat)
      (w : World),
      (∀ b ∈ behs, ∃ ls, b = SpawnResult.ran ls 0) →
      ∃ w2, runSteps rules mode total cmds behs index w =
        (finishRun w2, RunOutcome.normal) := by
  intro cmds
  induction cmds with
  | nil =>
    intro behs index w _
    exact ⟨w, rfl⟩
  | cons c rest ih =>
    intro behs index w hb
    obtain ⟨label, cmd⟩ := c
    cases behs with
    | nil =>
      rw [runSteps_nil_behs_step]
      exact ih [] _ _ (by simp)
    | cons b bt =>
      obtain ⟨ls, rfl⟩ := hb b (List.mem_cons_self b bt)
      rw [runSteps_ok_step]
      exact ih bt _ _ (fun b2 h2 => hb b2 (List.mem_cons_of_mem _ h2))

theorem run_deployment_all_success (rules : List (String × String)) (mode : String)
    (phases : List String) (behs : List SpawnResult) (w : World)
    (hb : ∀ b ∈ behs, ∃ ls, b = SpawnResult.ran ls 0) :
    ∃ w2, run_deployment rules mode phases behs w = (finishRun w2, RunOutcome.normal) := by
  simp only [run_deployment]
  exact runSteps_all_success _ _ _ _ _ _ _ hb

/-- C8: within a single run, the sequence of progress percentages written
to the deployment state (equivalently, published as `progress` events) is
monotonically non-decreasing — for every mode, rule table, phase list and
child behaviour, including failing and non-spawning steps; and when every
step exits 0 the run ends with progress exactly 100 and status `complete`
(the per-step deltas, from 0 at the start, telescope to exactly 100). -/
theorem run_progress_monotone_and_complete (rules : List (String × String)) (mode : String)
    (phases : List String) (behs : List SpawnResult) :
    List.Chain' (· ≤ ·)
      (ptrace (run_deployment rules mode phases behs initialWorld).1.events)
    ∧ ((∀ b ∈ behs, ∃ ls, b = SpawnResult.ran ls 0) →
        stateNum (run_deployment rules mode phases behs initialWorld).1.state "progress" =
            some 100
        ∧ stateStr (run_deployment rules mode phases behs initialWorld).1.state "status" =
            some "complete"
        ∧ (run_deployment rules mode phases behs initialWorld).1.active = false
        ∧ (run_deployment rules mode phases behs initialWorld).2 = RunOutcome.normal) := by
  constructor
  · simp only [run_deployment]
    apply runSteps_ptrace_mono
    · split
      · omega
      · omega
    · exact le_refl 1
    · split
      · omega
      · omega
    · rw [ptrace_update_state_all, ptrace_enqueue_log, ptrace_enqueue_status]
      simp [initialWorld, ptrace, List.chain'_singleton]
    · rw [ptrace_update_state_all, ptrace_enqueue_log, ptrace_enqueue_status]
      intro q hq
      simp [initialWorld, ptrace] at hq
      subst hq
      norm_num
  · intro hb
    obtain ⟨w2, hw2⟩ := run_deployment_all_success rules mode phases behs initialWorld hb
    rw [hw2]
    exact ⟨(finishRun_state w2).1, (finishRun_state w2).2.1, (finishRun_state w2).2.2, rfl⟩

/-- Witness for `run_progress_monotone_and_complete`: the automated
single-step run with exit 0. -/
theorem run_progress_monotone_and_complete_witness :
    List.Chain' (· ≤ ·)
      (ptrace (run_deployment [] "automated" [] [SpawnResult.ran [] 0]
        initialWorld).1.events)
    ∧ stateNum (run_deployment [] "automated" [] [SpawnResult.ran [] 0]
        initialWorld).1.state "progress" = some 100
    ∧ stateStr (run_deployment [] "automated" [] [SpawnResult.ran [] 0]
        initialWorld).1.state "status" = some "complete" := by
  have h := run_progress_monotone_and_complete [] "automated" [] [SpawnResult.ran [] 0]
  have h2 := h.2 (by
    intro b hb
    simp only [List.mem_singleton] at hb
    exact ⟨[], hb⟩)
  exact ⟨h.1, h2.1, h2.2.1⟩

/-- C9: when the resolved command sequence is empty, the step-count
denominator is coerced to 1 (`len(commands) or 1`, so no division by zero
can occur) and the run terminates immediately and successfully: no process
is spawned, progress is set to 100, status to `complete`, and the active
flag back to false. -/
theorem run_deployment_empty_sequence (rules : List (String × String)) (mode : String)
    (phases : List String) (behs : List SpawnResult)
    (hempty : build_command_sequence mode phases = []) :
    (run_deployment rules mode phases behs initialWorld).2 = RunOutcome.normal
    ∧ (run_deployment rules mode phases behs initialWorld).1.spawned = []
    ∧ stateNum (run_deployment rules mode phases behs initialWorld).1.state "progress" =
        some 100
    ∧ stateStr (run_deployment rules mode phases behs initialWorld).1.state "status" =
        some "complete"
    ∧ (run_deployment rules mode phases behs initialWorld).1.active = false := by
  have hrun : ∃ w2, run_deployment rules mode phases behs initialWorld =
      (finishRun w2, RunOutcome.normal) ∧ w2.spawned = [] := by
    simp only [run_deployment, hempty]
    exact ⟨_, rfl, rfl⟩
  obtain ⟨w2, hw2, hsp⟩ := hrun
  rw [hw2]
  exact ⟨rfl, hsp, (finishRun_state w2).1, (finishRun_state w2).2.1,
    (finishRun_state w2).2.2⟩

/-- Witness for `run_deployment_empty_sequence`: a phased run whose only
label is unknown resolves to the empty sequence. -/
theorem run_deployment_empty_sequence_witness :
    (run_deployment [] "phased" ["Bogus phase"] [] initialWorld).2 = RunOutcome.normal
    ∧ (run_deployment [] "phased" ["Bogus phase"] [] initialWorld).1.spawned = []
    ∧ stateNum (run_deployment [] "phased" ["Bogus phase"] []
        initialWorld).1.state "progress" = some 100
    ∧ stateStr (run_deployment [] "phased" ["Bogus phase"] []
        initialWorld).1.state "status" = some "complete"
    ∧ (run_deployment [] "phased" ["Bogus phase"] [] initialWorld).1.active = false :=
  run_deployment_empty_sequence [] "phased" ["Bogus phase"] [] rfl
